import Mathlib

/-!
# Verification of the `vscode-astronomy` FITS custom-editor core

Shallow embedding of `src/fitsView.ts` (document/edit lifecycle, message
bridge, webview registry) and of the webview-side decode in
`media/vscode_astro.js` (`loadFits`).  Bytes are `List Nat` (each < 256),
JavaScript strings are `List Nat` of Unicode code points, numeric ids are
`Nat`.  JavaScript arrays that are mutated through aliased references
(`_edits` / `_savedEdits`) are modelled by an explicit heap of lists plus
reference indices.
-/

set_option autoImplicit false

namespace FitsSpec

/-! ## Byte / text transport (provider `init` encode, panel `loadFits` decode)

The provider sends `Buffer.from(document.documentData.buffer).toString()`,
i.e. the UTF-8 *decoding* of the raw bytes into a JavaScript string, with
malformed sequences replaced by U+FFFD (Node's `buf.toString('utf8')`,
WHATWG replacement behaviour).  The panel's `loadFits` turns the string
back into bytes with `new Uint8Array(Buffer.from(data))`, i.e. UTF-8
*encoding* of the code points. -/

/-- UTF-8 encoding of one Unicode scalar value, as `Buffer.from(string)`
performs per code point. -/
def utf8EncodeChar (c : Nat) : List Nat :=
  if c < 0x80 then [c]
  else if c < 0x800 then [0xC0 + c / 64, 0x80 + c % 64]
  else if c < 0x10000 then [0xE0 + c / 4096, 0x80 + c / 64 % 64, 0x80 + c % 64]
  else [0xF0 + c / 262144, 0x80 + c / 4096 % 64, 0x80 + c / 64 % 64, 0x80 + c % 64]

/-- The panel-side decode in `loadFits`: `new Uint8Array(Buffer.from(data))`
UTF-8-encodes the string's code points back into bytes. -/
def panelDecode (codePoints : List Nat) : List Nat :=
  codePoints.flatMap utf8EncodeChar

/-- Is `b` a UTF-8 continuation byte (`10xxxxxx`)? -/
def isCont (b : Nat) : Bool :=
  0x80 ≤ b && b < 0xC0

/-- One step of UTF-8 decoding with replacement (WHATWG "maximal subpart"
policy, as Node's `buf.toString('utf8')`): given a lead byte `b` and the
following bytes, return the decoded code point (U+FFFD on malformed input)
and how many bytes of `rest` were consumed in addition to `b`. -/
def utf8Step (b : Nat) (rest : List Nat) : Nat × Nat :=
  if b < 0x80 then (b, 0)
  else if b < 0xC2 then
    -- stray continuation byte, or overlong lead 0xC0/0xC1
    (0xFFFD, 0)
  else if b < 0xE0 then
    match rest with
    | b1 :: _ =>
      if isCont b1 then ((b - 0xC0) * 64 + (b1 - 0x80), 1) else (0xFFFD, 0)
    | [] => (0xFFFD, 0)
  else if b < 0xF0 then
    match rest with
    | b1 :: rest1 =>
      -- E0 excludes overlong (b1 < A0), ED excludes surrogates (b1 ≥ A0)
      if isCont b1 && !(b == 0xE0 && b1 < 0xA0) && !(b == 0xED && 0xA0 ≤ b1) then
        match rest1 with
        | b2 :: _ =>
          if isCont b2 then ((b - 0xE0) * 4096 + (b1 - 0x80) * 64 + (b2 - 0x80), 2)
          else (0xFFFD, 1)
        | [] => (0xFFFD, 1)
      else (0xFFFD, 0)
    | [] => (0xFFFD, 0)
  else if b < 0xF5 then
    match rest with
    | b1 :: rest1 =>
      -- F0 excludes overlong (b1 < 90), F4 excludes > U+10FFFF (b1 ≥ 90)
      if isCont b1 && !(b == 0xF0 && b1 < 0x90) && !(b == 0xF4 && 0x90 ≤ b1) then
        match rest1 with
        | b2 :: rest2 =>
          if isCont b2 then
            match rest2 with
            | b3 :: _ =>
              if isCont b3 then
                ((b - 0xF0) * 262144 + (b1 - 0x80) * 4096 + (b2 - 0x80) * 64 + (b3 - 0x80), 3)
              else (0xFFFD, 2)
            | [] => (0xFFFD, 2)
          else (0xFFFD, 1)
        | [] => (0xFFFD, 1)
      else (0xFFFD, 0)
    | [] => (0xFFFD, 0)
  else
    -- 0xF5 .. 0xFF can never start a valid sequence
    (0xFFFD, 0)

/-- UTF-8 decoding with U+FFFD replacement of malformed input, as Node's
`buf.toString('utf8')` performs (this is the provider-side `encode` applied
to `documentData` before the `init` message). -/
def utf8DecodeLossy : List Nat → List Nat
  | [] => []
  | b :: rest =>
    let s := utf8Step b rest
    s.1 :: utf8DecodeLossy (rest.drop s.2)
termination_by l => l.length
decreasing_by simp [List.length_drop]; omega

/-- The provider-side encode on line 281 of `fitsView.ts`:
`Buffer.from(document.documentData.buffer).toString()`. -/
def providerEncode (bytes : List Nat) : List Nat :=
  utf8DecodeLossy bytes

/-! ## Storage backend and `FitsFile.readFile` / `FitsFile.create` -/

/-- A resource identifier (`vscode.Uri`): scheme plus the rest. -/
structure Uri where
  scheme : String
  path : String
deriving DecidableEq, Repr

/-- `uri.toString()`, the key used by `WebviewCollection`. -/
def uriKey (u : Uri) : String :=
  u.scheme ++ "://" ++ u.path

/-- The workspace file system (`vscode.workspace.fs.readFile`): per-uri it
either yields bytes or fails with an I/O error. -/
abbrev FileSystem : Type :=
  Uri → Except String (List Nat)

/-- `FitsFile.readFile`: an `untitled` uri yields empty bytes without
touching storage; otherwise the storage read's outcome is propagated. -/
def readFile (fs : FileSystem) (uri : Uri) : Except String (List Nat) :=
  if uri.scheme = "untitled" then .ok [] else fs uri

/-! ## The document model (`FitsFile`)

`_edits` and `_savedEdits` are JavaScript arrays mutated in place and
rebound by assignment (`this._edits = this._savedEdits` in `revert`), so
we model an explicit heap (`store`) of arrays with the two fields holding
references into it. -/

/-- An edit (`PawDrawEdit`): a color and a stroke, opaque to the document. -/
structure PawDrawEdit where
  color : String
  stroke : List (Int × Int)
deriving DecidableEq, Repr

/-- Payload of the `onDidChangeContent` event: optional new bytes plus the
current edit list. -/
structure ChangeEvent where
  content : Option (List Nat)
  edits : List PawDrawEdit
deriving DecidableEq, Repr

/-- Heap of JavaScript arrays of edits, addressed by index. -/
abbrev EditHeap : Type :=
  List (List PawDrawEdit)

/-- Read the array at reference `r`. -/
def heapGet (h : EditHeap) (r : Nat) : List PawDrawEdit :=
  List.getD h r []

/-- Overwrite the array at reference `r` (in-place array mutation). -/
def heapSet (h : EditHeap) (r : Nat) (v : List PawDrawEdit) : EditHeap :=
  List.set h r v

/-- State of one `FitsFile`: its uri, the heap of edit arrays, the two
array references `_edits` / `_savedEdits`, and `_documentData`. -/
structure DocState where
  uri : Uri
  store : EditHeap
  editsRef : Nat
  savedEditsRef : Nat
  documentData : List Nat
deriving DecidableEq, Repr

/-- The current value of `this._edits`. -/
def DocState.edits (s : DocState) : List PawDrawEdit :=
  heapGet s.store s.editsRef

/-- The current value of `this._savedEdits`. -/
def DocState.savedEdits (s : DocState) : List PawDrawEdit :=
  heapGet s.store s.savedEditsRef

/-- Both array references point into the heap (true of every state the
constructor and the operations below produce). -/
def DocState.Valid (s : DocState) : Prop :=
  s.editsRef < s.store.length ∧ s.savedEditsRef < s.store.length

/-- `FitsFile.create`: read from the backup uri when one was given, else
from `uri`; the constructor starts with two distinct empty edit arrays. -/
def createDoc (fs : FileSystem) (uri : Uri) (backupId : Option Uri) :
    Except String DocState :=
  let dataFile := backupId.getD uri
  (readFile fs dataFile).map fun d =>
    { uri := uri, store := [[], []], editsRef := 0, savedEditsRef := 1,
      documentData := d }

/-- `makeEdit`: push the edit onto `this._edits`.  (The fired `onDidChange`
event carries the label `Stroke` and the two closures modelled by
`undoAction` / `redoAction` below.) -/
def makeEdit (s : DocState) (e : PawDrawEdit) : DocState :=
  { s with store := heapSet s.store s.editsRef (s.edits ++ [e]) }

/-- The `undo` closure emitted by `makeEdit`: `this._edits.pop()` (drop the
last element of whatever array `this._edits` denotes at call time), then
fire `onDidChangeContent` with the updated edit list. -/
def undoAction (s : DocState) : DocState × ChangeEvent :=
  let newEdits := s.edits.dropLast
  ({ s with store := heapSet s.store s.editsRef newEdits },
   { content := none, edits := newEdits })

/-- The `redo` closure emitted by `makeEdit e`: `this._edits.push(edit)`
with the captured edit `e`, then fire `onDidChangeContent`. -/
def redoAction (s : DocState) (e : PawDrawEdit) : DocState × ChangeEvent :=
  let newEdits := s.edits ++ [e]
  ({ s with store := heapSet s.store s.editsRef newEdits },
   { content := none, edits := newEdits })

/-- A write performed against storage: target uri and bytes. -/
abbrev WriteEvent : Type :=
  Uri × List Nat

/-- `saveAs`: the delegate has produced `fileData`; if cancellation is
already requested, return without writing, else write to `target`.
Returns the list of writes performed (the document state is untouched). -/
def saveAsOp (fileData : List Nat) (cancelled : Bool) (target : Uri) :
    List WriteEvent :=
  if cancelled then [] else [(target, fileData)]

/-- `save`: delegate to `saveAs(this.uri, …)`, then unconditionally
`this._savedEdits = Array.from(this._edits)` — a fresh array copying the
current edits, regardless of whether the write was skipped. -/
def saveOp (s : DocState) (fileData : List Nat) (cancelled : Bool) :
    DocState × List WriteEvent :=
  let writes := saveAsOp fileData cancelled s.uri
  ({ s with store := s.store ++ [s.edits], savedEditsRef := s.store.length },
   writes)

/-- `revert`: re-read bytes from `this.uri`; on success assign
`this._documentData = diskContent` and `this._edits = this._savedEdits`
(reference assignment: afterwards the two fields alias one array), and
fire a single `onDidChangeContent` event with the new bytes and edit
list.  A failing read propagates and leaves the state unchanged. -/
def revertOp (fs : FileSystem) (s : DocState) :
    Except String (DocState × ChangeEvent) :=
  match readFile fs s.uri with
  | .error e => .error e
  | .ok diskContent =>
    let s1 : DocState :=
      { s with documentData := diskContent, editsRef := s.savedEditsRef }
    .ok (s1, { content := some diskContent, edits := s1.edits })

/-- `backup`: delegate to `saveAs(destination, …)`; the document state is
untouched (the returned deletion handle touches only storage). -/
def backupOp (fileData : List Nat) (cancelled : Bool) (destination : Uri) :
    List WriteEvent :=
  saveAsOp fileData cancelled destination

/-- One document-level operation, for reasoning about interleavings.
`save`, `saveAs` and `backup` carry the byte payload the delegate produced
and whether cancellation was requested before the write; `revert` carries
the bytes the disk read returned. -/
inductive DocOp where
  | makeEdit (e : PawDrawEdit)
  | undo
  | redo (e : PawDrawEdit)
  | save (fileData : List Nat) (cancelled : Bool)
  | saveAs (target : Uri) (fileData : List Nat) (cancelled : Bool)
  | revert (diskContent : List Nat)
  | backup (destination : Uri) (fileData : List Nat) (cancelled : Bool)
deriving DecidableEq, Repr

/-- Effect of one operation on the document state. -/
def applyOp (s : DocState) : DocOp → DocState
  | .makeEdit e => makeEdit s e
  | .undo => (undoAction s).1
  | .redo e => (redoAction s e).1
  | .save d c => (saveOp s d c).1
  | .saveAs _ _ _ => s
  | .revert diskContent =>
    { s with documentData := diskContent, editsRef := s.savedEditsRef }
  | .backup _ _ _ => s

/-- Run a sequence of operations. -/
def runOps (s : DocState) (ops : List DocOp) : DocState :=
  ops.foldl applyOp s

/-- Formalisation of the words of the claim about `savedEdits`: the value
`edits` had at the most recent *successful* save (one whose write was not
skipped by cancellation), starting from snapshot `snap`. -/
def claimedSnapshot (s : DocState) (snap : List PawDrawEdit) :
    List DocOp → List PawDrawEdit
  | [] => snap
  | op :: rest =>
    let snap1 := match op with
      | .save _ false => s.edits
      | _ => snap
    claimedSnapshot (applyOp s op) snap1 rest

/-! ## The message bridge (`postMessageWithResponse` / `onMessage`) -/

/-- The pending-request table `_callbacks : Map<number, resolver>`, as an
insertion-ordered association list from request id to the reference of the
promise cell the stored resolver settles. -/
abbrev CallbackMap : Type :=
  List (Nat × Nat)

/-- JavaScript `Map.set`: overwrite the value at an existing key in place,
else append the new entry. -/
def mapSet (m : CallbackMap) (k v : Nat) : CallbackMap :=
  if (m.lookup k).isSome then
    m.map fun p => if p.1 = k then (k, v) else p
  else
    m ++ [(k, v)]

/-- Host-side bridge state: the `_requestId` counter (starts at 1), the
pending-request table, and a heap of promise cells (`none` = pending,
`some v` = settled with `v`; a promise settles at most once). -/
structure BridgeState where
  requestId : Nat
  callbacks : CallbackMap
  promises : List (Option (List Int))
deriving DecidableEq, Repr

/-- `postMessageWithResponse`: take the next request id, allocate a fresh
pending promise, store its resolver in `_callbacks`, post
`{type, requestId, body}`.  Returns (new state, request id used, promise
reference handed to the caller). -/
def postMessageWithResponse (s : BridgeState) : BridgeState × Nat × Nat :=
  let rid := s.requestId
  let ref := s.promises.length
  ({ requestId := rid + 1,
     callbacks := mapSet s.callbacks rid ref,
     promises := s.promises ++ [none] }, rid, ref)

/-- Settle a promise cell: resolving an already-settled promise is a
no-op. -/
def resolveCell (promises : List (Option (List Int))) (ref : Nat)
    (v : List Int) : List (Option (List Int)) :=
  match List.getD promises ref none with
  | some _ => promises
  | none => List.set promises ref (some v)

/-- The `response` arm of `onMessage`: look the id up in `_callbacks` and
invoke the resolver if present.  The entry is *not* deleted. -/
def onResponse (s : BridgeState) (rid : Nat) (body : List Int) : BridgeState :=
  match s.callbacks.lookup rid with
  | none => s
  | some ref => { s with promises := resolveCell s.promises ref body }

/-! ## The webview registry and the `getFileData` delegate -/

/-- `WebviewCollection._webviews`: a `Set` of (resource key, panel) entries
iterated in insertion order; panels are identified by `Nat` handles. -/
abbrev WebviewCollection : Type :=
  List (String × Nat)

/-- `WebviewCollection.add`: insert at the end (JS `Set.add` keeps
insertion order). -/
def wcAdd (c : WebviewCollection) (key : String) (panel : Nat) :
    WebviewCollection :=
  c ++ [(key, panel)]

/-- `WebviewCollection.get`: all panels whose resource equals the key, in
insertion order. -/
def wcGet (c : WebviewCollection) (key : String) : List Nat :=
  (c.filter fun e => e.1 = key).map fun e => e.2

/-- The `getFileData` delegate installed by `openCustomDocument`: with no
registered panel it throws `Could not find webview to save for`; otherwise
it sends the `getFileData` request to `webviewsForDocument[0]` only —
returned here as the single panel that is consulted. -/
def getFileDataPanel (c : WebviewCollection) (key : String) :
    Except String Nat :=
  match wcGet c key with
  | [] => .error "Could not find webview to save for"
  | p :: _ => .ok p

/-! ## Concrete sample values, used to instantiate general theorems -/

/-- A sample non-untitled resource. -/
def sampleUri : Uri :=
  { scheme := "file", path := "a.fits" }

/-- A sample edit. -/
def editA : PawDrawEdit :=
  { color := "red", stroke := [(0, 0)] }

/-- Another sample edit. -/
def editB : PawDrawEdit :=
  { color := "blue", stroke := [(1, 1)] }

/-- A freshly created document on `sampleUri` (the state `FitsFile.create`
builds, with bytes `[7]`). -/
def docEx : DocState :=
  { uri := sampleUri, store := [[], []], editsRef := 0, savedEditsRef := 1,
    documentData := [7] }

/-- A document state in which `_edits` and `_savedEdits` alias one array,
as produced by `revert`. -/
def docAliased : DocState :=
  { uri := sampleUri, store := [[editA]], editsRef := 0, savedEditsRef := 0,
    documentData := [] }

/-- A sample file system: `sampleUri` holds bytes `[9, 9]`, everything
else fails to read. -/
def fsEx : FileSystem := fun u =>
  if u = sampleUri then .ok [9, 9] else .error "ENOENT"

/-- The operation sequence of the `savedEdits` counterexample: an edit, a
successful save, a revert, then another edit. -/
def opsC3 : List DocOp :=
  [DocOp.makeEdit editA, DocOp.save [1] false, DocOp.revert [1],
   DocOp.makeEdit editB]

/-! # Theorems

Helper lemmas first, then one theorem per claim (with witnesses and
counterexamples where required). -/

theorem heapGet_heapSet_self (h : EditHeap) (r : Nat) (v : List PawDrawEdit)
    (hr : r < h.length) : heapGet (heapSet h r v) r = v := by
  simp [heapGet, heapSet, List.getD_eq_getElem?_getD, List.getElem?_set_self', hr]

theorem heapGet_heapSet_ne (h : EditHeap) (r r2 : Nat) (v : List PawDrawEdit)
    (hne : r ≠ r2) : heapGet (heapSet h r v) r2 = heapGet h r2 := by
  simp [heapGet, heapSet, List.getD_eq_getElem?_getD, List.getElem?_set_ne, hne]

theorem heapSet_heapGet_self (h : EditHeap) (r : Nat) (hr : r < h.length) :
    heapSet h r (heapGet h r) = h := by
  induction h generalizing r with
  | nil => simp at hr
  | cons a t ih =>
    cases r with
    | zero => simp [heapGet, heapSet]
    | succ n =>
      have := ih n (by simpa using hr)
      simpa [heapGet, heapSet] using this

theorem heapGet_concat_length (h : EditHeap) (v : List PawDrawEdit) :
    heapGet (h ++ [v]) h.length = v := by
  simp [heapGet, List.getD_eq_getElem?_getD, List.getElem?_concat_length]

theorem heapGet_append_left (h : EditHeap) (t : EditHeap) (r : Nat)
    (hr : r < h.length) : heapGet (h ++ t) r = heapGet h r := by
  simp [heapGet, List.getD_eq_getElem?_getD, List.getElem?_append_left, hr]

/-- C1 (code bug): the spec requires `decode(encode(B)) == B` for arbitrary
bytes, but the code encodes with a lossy UTF-8 `Buffer.toString()`: for
`documentData = [0xFF]` the provider sends U+FFFD and the panel's
`loadFits` decode yields `[0xEF, 0xBF, 0xBD]`, not `[0xFF]` — the
round-trip is not lossless. -/
theorem C1_roundtrip_not_lossless :
    panelDecode (providerEncode [255]) = [239, 191, 189] ∧
    panelDecode (providerEncode [255]) ≠ [255] := by
  have hstep : providerEncode [255] = [0xFFFD] := by
    simp [providerEncode, utf8DecodeLossy, utf8Step]
  refine ⟨?_, ?_⟩ <;> simp [hstep, panelDecode, utf8EncodeChar]

/-- C6: when the cancellation signal is already requested once the delegate
has produced the byte payload, `saveAs` performs no write at all (the
cancellation check precedes the write), and the document state is
untouched. -/
theorem C6_saveAs_cancelled_writes_nothing (s : DocState) (fileData : List Nat)
    (target : Uri) :
    saveAsOp fileData true target = [] ∧
    applyOp s (DocOp.saveAs target fileData true) = s := by
  exact ⟨rfl, rfl⟩

/-- C9: the `getFileData` delegate errors exactly when the webview registry
holds no panel for the document's resource identifier; with at least one
registered panel it returns a panel instead of this error. -/
theorem C9_getFileData_error_iff_no_panel (c : WebviewCollection) (uri : Uri) :
    (getFileDataPanel c (uriKey uri) = .error "Could not find webview to save for"
      ↔ wcGet c (uriKey uri) = []) ∧
    (wcGet c (uriKey uri) ≠ [] → ∃ p, getFileDataPanel c (uriKey uri) = .ok p) := by
  constructor
  · cases h : wcGet c (uriKey uri) with
    | nil => simp [getFileDataPanel, h]
    | cons p t => simp [getFileDataPanel, h]
  · intro hne
    cases h : wcGet c (uriKey uri) with
    | nil => exact absurd h hne
    | cons p t => exact ⟨p, by simp [getFileDataPanel, h]⟩

/-- Witness for C9 at a registry holding one panel for `sampleUri` and at
the empty registry. -/
theorem C9_getFileData_error_iff_no_panel_witness :
    (∃ p, getFileDataPanel (wcAdd [] (uriKey sampleUri) 1) (uriKey sampleUri) = .ok p) ∧
    (getFileDataPanel [] (uriKey sampleUri)
      = .error "Could not find webview to save for") := by
  constructor
  · exact (C9_getFileData_error_iff_no_panel (wcAdd [] (uriKey sampleUri) 1)
      sampleUri).2 (by decide)
  · exact (C9_getFileData_error_iff_no_panel [] sampleUri).1.mpr (by decide)

/-- C10: with two or more panels registered for the document's resource,
`getFileData` consults only the first panel in the registry's insertion
order (the model returns the single panel that is queried). -/
theorem C10_only_first_panel_consulted (c : WebviewCollection) (uri : Uri)
    (p q : Nat) (rest : List Nat)
    (h : wcGet c (uriKey uri) = p :: q :: rest) :
    getFileDataPanel c (uriKey uri) = .ok p := by
  simp [getFileDataPanel, h]

theorem lookup_cons_eq (k : Nat) (p : Nat × Nat) (t : CallbackMap) :
    List.lookup k (p :: t) = if k == p.1 then some p.2 else List.lookup k t := by
  rcases p with ⟨a, b⟩
  rw [List.lookup]
  rcases h : k == a with _ | _ <;> simp [h]

theorem lookup_append_of_none (m l2 : CallbackMap) (k : Nat)
    (h : List.lookup k m = none) :
    List.lookup k (m ++ l2) = List.lookup k l2 := by
  induction m with
  | nil => simp
  | cons a t ih =>
    rw [lookup_cons_eq] at h
    by_cases hk : k = a.1
    · simp [hk] at h
    · rw [List.cons_append, lookup_cons_eq, if_neg (by simpa using hk)]
      rw [if_neg (by simpa using hk)] at h
      exact ih h

theorem lookup_overwrite (m : CallbackMap) (k v : Nat)
    (h : (List.lookup k m).isSome) :
    List.lookup k (m.map fun p => if p.1 = k then (k, v) else p) = some v := by
  induction m with
  | nil => simp [List.lookup] at h
  | cons a t ih =>
    rw [lookup_cons_eq] at h
    by_cases hk : k = a.1
    · rw [List.map_cons, if_pos hk.symm, lookup_cons_eq, if_pos (by simp)]
    · rw [List.map_cons, if_neg (fun hh => hk hh.symm), lookup_cons_eq,
        if_neg (by simpa using hk)]
      rw [if_neg (by simpa using hk)] at h
      exact ih h

theorem lookup_mapSet_self (m : CallbackMap) (k v : Nat) :
    List.lookup k (mapSet m k v) = some v := by
  by_cases h : (List.lookup k m).isSome
  · simpa [mapSet, h] using lookup_overwrite m k v h
  · have h0 : List.lookup k m = none := by
      cases hl : List.lookup k m with
      | none => rfl
      | some x => rw [hl] at h; simp at h
    rw [mapSet, if_neg (by simp [h0])]
    rw [lookup_append_of_none m [(k, v)] k h0]
    simp [List.lookup]

/-- C2 counterexample: send a request (it gets id 1), then process a
response for id 1.  The claim says the pending entry for id 1 is then
removed from `_callbacks`; in the code `onMessage` never deletes it, so
the lookup still succeeds. -/
theorem C2_counterexample_entry_not_removed :
    List.lookup 1 (onResponse
      (postMessageWithResponse
        { requestId := 1, callbacks := [], promises := [] }).1 1 [7]).callbacks
      ≠ none := by
  decide

/-- C2 amended: a response carrying the request's id and payload `P`
settles the caller's promise with exactly `P`, and a second response with
the same id is a complete no-op on the bridge state (the promise settles
only once) — but the pending entry is never removed from the
pending-request table. -/
theorem C2_response_resolves_once_entry_retained (s : BridgeState)
    (P Q : List Int) :
    ((onResponse (postMessageWithResponse s).1 (postMessageWithResponse s).2.1 P).promises[(postMessageWithResponse s).2.2]? = some (some P)) ∧
    (onResponse (onResponse (postMessageWithResponse s).1 (postMessageWithResponse s).2.1 P) (postMessageWithResponse s).2.1 Q
      = onResponse (postMessageWithResponse s).1 (postMessageWithResponse s).2.1 P) ∧
    (List.lookup (postMessageWithResponse s).2.1
      (onResponse (postMessageWithResponse s).1 (postMessageWithResponse s).2.1 P).callbacks
      = some (postMessageWithResponse s).2.2) := by
  have hcb : List.lookup s.requestId
      (mapSet s.callbacks s.requestId s.promises.length)
      = some s.promises.length :=
    lookup_mapSet_self s.callbacks s.requestId s.promises.length
  have hgetD : (s.promises ++ [(none : Option (List Int))]).getD
      s.promises.length none = none := by
    simp [List.getD_eq_getElem?_getD, List.getElem?_concat_length]
  have hset : (s.promises ++ [(none : Option (List Int))]).set
      s.promises.length (some P) = s.promises ++ [some P] := by
    simp [List.set_append_right]
  have hs2 : onResponse (postMessageWithResponse s).1
      (postMessageWithResponse s).2.1 P
      = { requestId := s.requestId + 1,
          callbacks := mapSet s.callbacks s.requestId s.promises.length,
          promises := s.promises ++ [some P] } := by
    simp [onResponse, postMessageWithResponse, hcb, resolveCell, hgetD, hset]
  have hgetD2 : (s.promises ++ [some P]).getD s.promises.length none
      = some P := by
    simp [List.getD_eq_getElem?_getD, List.getElem?_concat_length]
  refine ⟨?_, ?_, ?_⟩
  · rw [hs2]
    show (s.promises ++ [some P])[s.promises.length]? = some (some P)
    exact List.getElem?_concat_length ..
  · rw [hs2]
    show onResponse _ s.requestId Q = _
    simp [onResponse, hcb, resolveCell, hgetD2]
  · rw [hs2]
    exact hcb

/-- Witness for C10: two panels registered for `sampleUri` in insertion
order `[1, 2]`; the consulted panel is `1`. -/
theorem C10_only_first_panel_consulted_witness :
    getFileDataPanel (wcAdd (wcAdd [] (uriKey sampleUri) 1) (uriKey sampleUri) 2)
      (uriKey sampleUri) = .ok 1 :=
  C10_only_first_panel_consulted
    (wcAdd (wcAdd [] (uriKey sampleUri) 1) (uriKey sampleUri) 2)
    sampleUri 1 2 [] (by decide)

theorem runOps_makeEdits (es : List PawDrawEdit) :
    ∀ s : DocState, s.editsRef < s.store.length →
    runOps s (es.map DocOp.makeEdit)
      = { s with store := heapSet s.store s.editsRef (s.edits ++ es) } := by
  induction es with
  | nil =>
    intro s h
    have h2 : heapSet s.store s.editsRef (s.edits ++ []) = s.store := by
      rw [List.append_nil]
      exact heapSet_heapGet_self s.store s.editsRef h
    show s = _
    rw [h2]
  | cons e es ih =>
    intro s h
    have h2 : (makeEdit s e).editsRef < (makeEdit s e).store.length := by
      show s.editsRef < (heapSet s.store s.editsRef (s.edits ++ [e])).length
      simpa [heapSet] using h
    have hedits : (makeEdit s e).edits = s.edits ++ [e] :=
      heapGet_heapSet_self s.store s.editsRef (s.edits ++ [e]) h
    show runOps (makeEdit s e) (es.map DocOp.makeEdit) = _
    rw [ih (makeEdit s e) h2]
    show ({ s with store := (heapSet (heapSet s.store s.editsRef (s.edits ++ [e])) s.editsRef ((makeEdit s e).edits ++ es)) } : DocState) = _
    rw [hedits, heapSet, heapSet, heapSet, List.set_set, List.append_assoc]
    rfl

theorem runOps_undos (n : Nat) :
    ∀ s : DocState, s.editsRef < s.store.length →
    runOps s (List.replicate n DocOp.undo)
      = { s with store := heapSet s.store s.editsRef (List.dropLast^[n] s.edits) } := by
  induction n with
  | zero =>
    intro s h
    have h2 : heapSet s.store s.editsRef s.edits = s.store :=
      heapSet_heapGet_self s.store s.editsRef h
    show s = _
    rw [Function.iterate_zero, id_eq, h2]
  | succ n ih =>
    intro s h
    have h2 : ((undoAction s).1).editsRef < ((undoAction s).1).store.length := by
      show s.editsRef < (heapSet s.store s.editsRef s.edits.dropLast).length
      simpa [heapSet] using h
    have hedits : ((undoAction s).1).edits = s.edits.dropLast :=
      heapGet_heapSet_self s.store s.editsRef s.edits.dropLast h
    show runOps ((undoAction s).1) (List.replicate n DocOp.undo) = _
    rw [ih ((undoAction s).1) h2]
    show ({ s with store := (heapSet (heapSet s.store s.editsRef s.edits.dropLast) s.editsRef (List.dropLast^[n] (((undoAction s).1).edits))) } : DocState) = _
    rw [hedits, Function.iterate_succ_apply, heapSet, heapSet, heapSet, List.set_set]

theorem dropLast_iterate_concat (es : List PawDrawEdit) :
    ∀ l : List PawDrawEdit, List.dropLast^[es.length] (l ++ es) = l := by
  induction es using List.reverseRecOn with
  | nil => intro l; simp
  | append_singleton es e ih =>
    intro l
    have hlen : (es ++ [e]).length = es.length + 1 := by simp
    rw [hlen, Function.iterate_succ_apply, ← List.append_assoc, List.dropLast_concat]
    exact ih l

/-- C4: from any starting edit log, `n` `makeEdit` calls followed by the
`n` emitted `undo` actions (each pops the top of the log) return the edit
log to exactly its starting contents; and no `undo` or `redo` action ever
alters `documentData`. -/
theorem C4_undo_reverses_makeEdits (s : DocState) (es : List PawDrawEdit)
    (h : s.editsRef < s.store.length) :
    (runOps (runOps s (es.map DocOp.makeEdit))
       (List.replicate es.length DocOp.undo)).edits = s.edits ∧
    (runOps (runOps s (es.map DocOp.makeEdit))
       (List.replicate es.length DocOp.undo)).documentData = s.documentData ∧
    (∀ (t : DocState) (e : PawDrawEdit),
      ((undoAction t).1).documentData = t.documentData ∧
      ((redoAction t e).1).documentData = t.documentData) := by
  rw [runOps_makeEdits es s h]
  have hvalid : ({ s with store := heapSet s.store s.editsRef (s.edits ++ es) }
      : DocState).editsRef
      < ({ s with store := heapSet s.store s.editsRef (s.edits ++ es) }
      : DocState).store.length := by
    show s.editsRef < (heapSet s.store s.editsRef (s.edits ++ es)).length
    simpa [heapSet] using h
  rw [runOps_undos es.length _ hvalid]
  have hedits : ({ s with store := heapSet s.store s.editsRef (s.edits ++ es) }
      : DocState).edits = s.edits ++ es :=
    heapGet_heapSet_self s.store s.editsRef (s.edits ++ es) h
  refine ⟨?_, rfl, fun t e => ⟨rfl, rfl⟩⟩
  show heapGet (heapSet (heapSet s.store s.editsRef (s.edits ++ es)) s.editsRef
    (List.dropLast^[es.length]
      (({ s with store := heapSet s.store s.editsRef (s.edits ++ es) }
        : DocState).edits))) s.editsRef = s.edits
  rw [hedits, heapSet, heapSet, List.set_set, dropLast_iterate_concat]
  exact heapGet_heapSet_self s.store s.editsRef s.edits h

/-- Witness for C4 at a fresh document and two edits. -/
theorem C4_undo_reverses_makeEdits_witness :
    (runOps (runOps docEx ([editA, editB].map DocOp.makeEdit))
       (List.replicate 2 DocOp.undo)).edits = docEx.edits ∧
    (runOps (runOps docEx ([editA, editB].map DocOp.makeEdit))
       (List.replicate 2 DocOp.undo)).documentData = docEx.documentData ∧
    (∀ (t : DocState) (e : PawDrawEdit),
      ((undoAction t).1).documentData = t.documentData ∧
      ((redoAction t e).1).documentData = t.documentData) :=
  C4_undo_reverses_makeEdits docEx [editA, editB] (by decide)

/-- C5: after `makeEdit e`, running the emitted `undo` and then the
emitted `redo` re-appends the identical edit value `e`: the log is exactly
the starting log with `e` at the end, i.e. exactly what `makeEdit e` had
produced. -/
theorem C5_redo_restores_same_edit (s : DocState) (e : PawDrawEdit)
    (h : s.editsRef < s.store.length) :
    ((redoAction ((undoAction (makeEdit s e)).1) e).1).edits = s.edits ++ [e] ∧
    ((redoAction ((undoAction (makeEdit s e)).1) e).1).edits
      = (makeEdit s e).edits := by
  have hmlen : (makeEdit s e).store.length = s.store.length := by
    simp [makeEdit, heapSet]
  have hm : (makeEdit s e).edits = s.edits ++ [e] :=
    heapGet_heapSet_self s.store s.editsRef (s.edits ++ [e]) h
  have hu : ((undoAction (makeEdit s e)).1).edits = (makeEdit s e).edits.dropLast :=
    heapGet_heapSet_self (makeEdit s e).store (makeEdit s e).editsRef
      (makeEdit s e).edits.dropLast (by rw [hmlen]; exact h)
  have hu2 : ((undoAction (makeEdit s e)).1).edits = s.edits := by
    rw [hu, hm, List.dropLast_concat]
  have hulen : ((undoAction (makeEdit s e)).1).store.length = s.store.length := by
    show (heapSet _ _ _).length = _
    simp [heapSet, hmlen]
  have hr : ((redoAction ((undoAction (makeEdit s e)).1) e).1).edits
      = ((undoAction (makeEdit s e)).1).edits ++ [e] :=
    heapGet_heapSet_self _ _ _ (by rw [hulen]; exact h)
  exact ⟨by rw [hr, hu2], by rw [hr, hu2, hm]⟩

/-- Witness for C5 at a fresh document. -/
theorem C5_redo_restores_same_edit_witness :
    ((redoAction ((undoAction (makeEdit docEx editA)).1) editA).1).edits
      = docEx.edits ++ [editA] ∧
    ((redoAction ((undoAction (makeEdit docEx editA)).1) editA).1).edits
      = (makeEdit docEx editA).edits :=
  C5_redo_restores_same_edit docEx editA (by decide)

/-- C3 counterexample: starting from a fresh document, run
`makeEdit editA; save (successful); revert; makeEdit editB`.  The most
recent successful save snapshotted `edits = [editA]`, and no successful
save happened afterwards, yet `savedEdits` ends as `[editA, editB]`:
`revert` made `_edits` alias `_savedEdits`, so the later `makeEdit`
mutated `savedEdits`.  This falsifies the claim as stated. -/
theorem C3_counterexample_aliasing :
    (runOps docEx opsC3).savedEdits
      ≠ claimedSnapshot docEx docEx.savedEdits opsC3 := by
  decide

/-- C3 amended: every `save` call — successful or with its write skipped
by cancellation — sets `savedEdits` to the value `edits` has at that call;
`saveAs` and `backup` leave the document state unchanged; `revert` leaves
`savedEdits` unchanged but makes `_edits` alias `_savedEdits`; and
`makeEdit`/`undo`/`redo` leave `savedEdits` unchanged exactly when the two
references are distinct — when they alias (after a revert), `makeEdit`
also appends to `savedEdits`. -/
theorem C3_savedEdits_amended (s : DocState) (e : PawDrawEdit)
    (fileData diskContent : List Nat) (c : Bool) (target dest : Uri) :
    ((saveOp s fileData c).1).savedEdits = s.edits ∧
    applyOp s (DocOp.saveAs target fileData c) = s ∧
    applyOp s (DocOp.backup dest fileData c) = s ∧
    ((applyOp s (DocOp.revert diskContent)).savedEdits = s.savedEdits ∧
     (applyOp s (DocOp.revert diskContent)).editsRef
       = (applyOp s (DocOp.revert diskContent)).savedEditsRef) ∧
    (s.editsRef ≠ s.savedEditsRef →
      (makeEdit s e).savedEdits = s.savedEdits ∧
      ((undoAction s).1).savedEdits = s.savedEdits ∧
      ((redoAction s e).1).savedEdits = s.savedEdits) ∧
    (s.editsRef = s.savedEditsRef → s.editsRef < s.store.length →
      (makeEdit s e).savedEdits = s.savedEdits ++ [e]) := by
  refine ⟨?_, rfl, rfl, ⟨rfl, rfl⟩, ?_, ?_⟩
  · exact heapGet_concat_length s.store s.edits
  · intro hne
    exact ⟨heapGet_heapSet_ne s.store s.editsRef s.savedEditsRef _ hne,
      heapGet_heapSet_ne s.store s.editsRef s.savedEditsRef _ hne,
      heapGet_heapSet_ne s.store s.editsRef s.savedEditsRef _ hne⟩
  · intro hal h
    show heapGet (heapSet s.store s.editsRef (s.edits ++ [e])) s.savedEditsRef
      = s.savedEdits ++ [e]
    rw [← hal, heapGet_heapSet_self s.store s.editsRef (s.edits ++ [e]) h]
    show s.edits ++ [e] = heapGet s.store s.savedEditsRef ++ [e]
    rw [← hal]
    rfl

/-- Witness for C3's amended statement: a cancelled save still snapshots
`savedEdits`; with distinct references `makeEdit` leaves `savedEdits`
alone; with aliased references (state after a revert) `makeEdit` appends
to `savedEdits`. -/
theorem C3_savedEdits_amended_witness :
    ((saveOp docEx [1] true).1).savedEdits = docEx.edits ∧
    (makeEdit docEx editA).savedEdits = docEx.savedEdits ∧
    (makeEdit docAliased editB).savedEdits = docAliased.savedEdits ++ [editB] :=
  ⟨(C3_savedEdits_amended docEx editA [1] [] true sampleUri sampleUri).1,
   ((C3_savedEdits_amended docEx editA [1] [] true sampleUri sampleUri).2.2.2.2.1
     (by decide)).1,
   (C3_savedEdits_amended docAliased editB [1] [] true sampleUri sampleUri).2.2.2.2.2
     (by decide) (by decide)⟩

/-- C7: `create` reads from the backup location when one is provided and
from the primary location otherwise; when the location actually read has
the `untitled` scheme the payload is empty and storage is never consulted
(the result is the same for every file system); otherwise an I/O error is
propagated exactly when the storage read fails, and a successful read's
bytes become the document's payload. -/
theorem C7_create_reads_backup_else_uri (fs fs2 : FileSystem) (uri : Uri)
    (backupId : Option Uri) :
    ((backupId.getD uri).scheme = "untitled" →
      createDoc fs uri backupId = Except.ok
        { uri := uri, store := [[], []], editsRef := 0, savedEditsRef := 1,
          documentData := [] } ∧
      createDoc fs uri backupId = createDoc fs2 uri backupId) ∧
    ((backupId.getD uri).scheme ≠ "untitled" →
      (∀ d, fs (backupId.getD uri) = .ok d →
        createDoc fs uri backupId = Except.ok
          { uri := uri, store := [[], []], editsRef := 0, savedEditsRef := 1,
            documentData := d }) ∧
      (∀ err, fs (backupId.getD uri) = .error err →
        createDoc fs uri backupId = .error err)) := by
  constructor
  · intro h
    constructor
    · simp [createDoc, readFile, h, Except.map]
    · simp [createDoc, readFile, h]
  · intro h
    constructor
    · intro d hd
      simp [createDoc, readFile, h, hd, Except.map]
    · intro err herr
      simp [createDoc, readFile, h, herr, Except.map]

/-- Witness for C7: reading `sampleUri` from `fsEx` succeeds with
`[9, 9]`; an untitled location yields an empty payload on any file
system; a missing backup location propagates the I/O error. -/
theorem C7_create_reads_backup_else_uri_witness :
    createDoc fsEx sampleUri none = Except.ok
      { uri := sampleUri, store := [[], []], editsRef := 0, savedEditsRef := 1,
        documentData := [9, 9] } ∧
    createDoc fsEx sampleUri (some { scheme := "untitled", path := "new" })
      = Except.ok
      { uri := sampleUri, store := [[], []], editsRef := 0, savedEditsRef := 1,
        documentData := [] } ∧
    createDoc fsEx sampleUri (some { scheme := "file", path := "missing" })
      = Except.error "ENOENT" :=
  ⟨((C7_create_reads_backup_else_uri fsEx fsEx sampleUri none).2
      (by decide)).1 [9, 9] (by simp [fsEx]),
   ((C7_create_reads_backup_else_uri fsEx fsEx sampleUri
      (some { scheme := "untitled", path := "new" })).1 (by decide)).1,
   ((C7_create_reads_backup_else_uri fsEx fsEx sampleUri
      (some { scheme := "file", path := "missing" })).2
      (by decide)).2 "ENOENT" (by simp [fsEx, sampleUri])⟩

/-- C8: after any sequence of edits, a successful `revert` yields a state
whose `edits` equal the current `savedEdits` value, whose `documentData`
are the freshly read on-disk bytes, with exactly one content-changed
event carrying both; a failing disk read propagates the error. -/
theorem C8_revert_restores (fs : FileSystem) (s : DocState) :
    (∀ diskContent, readFile fs s.uri = .ok diskContent →
      revertOp fs s = Except.ok
        ({ s with documentData := diskContent, editsRef := s.savedEditsRef },
         { content := some diskContent, edits := s.savedEdits }) ∧
      ({ s with documentData := diskContent, editsRef := s.savedEditsRef }
        : DocState).edits = s.savedEdits) ∧
    (∀ err, readFile fs s.uri = .error err → revertOp fs s = .error err) := by
  constructor
  · intro diskContent hd
    constructor
    · simp [revertOp, hd]
      rfl
    · rfl
  · intro err herr
    simp [revertOp, herr]

/-- Witness for C8: `docEx` has edits `[]` saved, lives at `sampleUri`
whose disk bytes under `fsEx` are `[9, 9]`. -/
theorem C8_revert_restores_witness :
    revertOp fsEx docEx = Except.ok
      ({ docEx with documentData := [9, 9], editsRef := docEx.savedEditsRef },
       { content := some [9, 9], edits := docEx.savedEdits }) ∧
    revertOp fsEx { docEx with uri := { scheme := "file", path := "missing" } }
      = Except.error "ENOENT" :=
  ⟨((C8_revert_restores fsEx docEx).1 [9, 9] (by simp [readFile, fsEx, docEx, sampleUri])).1,
   (C8_revert_restores fsEx
      { docEx with uri := { scheme := "file", path := "missing" } }).2
      "ENOENT" (by simp [readFile, fsEx, docEx, sampleUri])⟩

end FitsSpec
